import Mathlib

/-!
Shallow embedding of the `webmcp-auto` auto-instrumentor (src/index.js).

The JS source inspects a document tree, infers tool descriptors
(name, description, input schema, handler) for forms / buttons / links,
and keeps them in a deduplicated, capacity-bounded registry.

Modelling conventions:
* DOM elements are records of the attribute / property surface the code
  actually reads (`getAttribute` returning `null` is modelled as `""` for
  string-reflected IDL attributes, and as `Option String` for `href`);
* CSS selector matching, `Math.random` suffixes and `new URL` resolution are
  external to the repository and are modelled as explicit inputs
  (an `excluded` flag, a `randSuffix` field, a `resolve` function argument);
* `parseFloat` is external; it is passed in as a function `pf : String → α`
  so the schema's numeric payload type is a parameter;
* handlers are modelled as pure functions returning the mutated element,
  the list of synthetic events dispatched (in order) and the JS result
  object; a `Bool` records whether native activation (`.click()`) happened.
-/

/- ── slugify (src/index.js lines 45-52) ───────────────────────────────── -/

/-- Characters collapsed to `_` by `.replace(/[\s_-]+/g, "_")`
(JS `\s` modelled by `Char.isWhitespace` for the ASCII whitespace range). -/
def isCollapseChar (c : Char) : Bool :=
  c.isWhitespace || c = '_' || c = '-'

/-- Characters kept by `.replace(/[^a-z0-9\s_-]/g, "")`:
`a`-`z` (97-122), `0`-`9` (48-57), whitespace, `_`, `-`. -/
def keepChar (c : Char) : Bool :=
  (97 ≤ c.toNat && c.toNat ≤ 122) || (48 ≤ c.toNat && c.toNat ≤ 57) || isCollapseChar c

/-- `.replace(/[\s_-]+/g, "_")`: each maximal run of collapse characters
becomes a single `_`.  The `Bool` flag records whether the previous
character belonged to a run. -/
def collapseAux : Bool → List Char → List Char
  | _, [] => []
  | prev, c :: rest =>
    if isCollapseChar c then
      if prev then collapseAux true rest else '_' :: collapseAux true rest
    else c :: collapseAux false rest

/-- The `^_` alternative of `.replace(/^_|_$/g, "")`: drop one leading `_`. -/
def dropLeadUnd : List Char → List Char
  | [] => []
  | c :: rest => if c = '_' then rest else c :: rest

/-- The `_$` alternative of `.replace(/^_|_$/g, "")`: drop one trailing `_`. -/
def dropTrailUnd : List Char → List Char
  | [] => []
  | [c] => if c = '_' then [] else [c]
  | c :: b :: rest => c :: dropTrailUnd (b :: rest)

/-- `slugify` on character lists: lowercase, strip, collapse, trim, truncate
(the source applies `.slice(0, 40)` last). -/
def slugList (l : List Char) : List Char :=
  (dropTrailUnd (dropLeadUnd (collapseAux false ((l.map Char.toLower).filter keepChar)))).take 40

/-- `slugify` (src/index.js lines 45-52). -/
def slugify (s : String) : String :=
  ⟨slugList s.data⟩

/- ── element model ────────────────────────────────────────────────────── -/

/-- A form control (`input` / `select` / `textarea` descendant).
String-reflected IDL attributes default to `""` when absent; `options`
lists the `value` of each `<option>` in document order (SELECT only). -/
structure Control where
  tagName : String := "INPUT"
  name : String := ""
  id : String := ""
  type : String := "text"
  min : String := ""
  max : String := ""
  required : Bool := false
  placeholder : String := ""
  pattern : String := ""
  options : List String := []
  value : String := ""
  checked : Bool := false
deriving DecidableEq

/-- A page element as seen by the instrumentor: the attribute/text surface
the source reads, plus externally-determined facts (`excluded` models the
CSS `isExcluded` test, `inForm` models `closest("form")`, `randSuffix`
models the `Math.random().toString(36).slice(2, 6)` draw). -/
structure Elem where
  tagName : String := ""
  toolname : String := ""
  id : String := ""
  name : String := ""
  ariaLabel : String := ""
  action : String := ""
  title : String := ""
  placeholder : String := ""
  etype : String := ""
  textContent : String := ""
  href : Option String := none
  controls : List Control := []
  labels : List (String × String) := []
  excluded : Bool := false
  inForm : Bool := false
  randSuffix : String := ""
deriving DecidableEq

/-- JS `.slice(0, n)` on a string. -/
def truncTake (n : Nat) (s : String) : String :=
  ⟨s.data.take n⟩

/-- JS `.trim()`: strip leading and trailing whitespace. -/
def jsTrim (s : String) : String :=
  ⟨((s.data.dropWhile Char.isWhitespace).reverse.dropWhile Char.isWhitespace).reverse⟩

/-- JS `.startsWith(p)`. -/
def jsStartsWith (s p : String) : Bool :=
  p.data.isPrefixOf s.data

/-- JS `s.split("/").pop()`: the suffix after the last `/`
(for a single-character separator, `split(sep).pop()` is exactly the
suffix after the last separator occurrence). -/
def lastSegment (s : String) : String :=
  ⟨(s.data.reverse.takeWhile (fun c => c ≠ '/')).reverse⟩

/-- JS `Array.prototype.join("_")`. -/
def joinParts : List String → String
  | [] => ""
  | [p] => p
  | p :: q :: rest => p ++ "_" ++ joinParts (q :: rest)

/-- JS `Array.prototype.join(", ")`. -/
def joinComma : List String → String
  | [] => ""
  | [p] => p
  | p :: q :: rest => p ++ ", " ++ joinComma (q :: rest)

/- ── generateToolName (src/index.js lines 54-92) ──────────────────────── -/

/-- The role-specific candidate pushed onto `parts` by
`generateToolName` (the body of its `context` dispatch). -/
def nameCandidates (e : Elem) (context : String) : List String :=
  let textContent := truncTake 30 (jsTrim e.textContent)
  if context = "form" then
    (if e.id ≠ "" then [slugify e.id]
     else if e.name ≠ "" then [slugify e.name]
     else if e.action ≠ "" then ["submit_" ++ slugify (lastSegment e.action)]
     else ["form_" ++ e.randSuffix])
  else if context = "button" then
    (if e.ariaLabel ≠ "" then [slugify e.ariaLabel]
     else if textContent ≠ "" then [slugify textContent]
     else if e.id ≠ "" then [slugify e.id]
     else ["action_" ++ e.randSuffix])
  else if context = "link" then
    (if e.ariaLabel ≠ "" then ["navigate_" ++ slugify e.ariaLabel]
     else if textContent ≠ "" then ["navigate_" ++ slugify textContent]
     else ["navigate_" ++ e.randSuffix])
  else if context = "input" then
    (if e.name ≠ "" then ["set_" ++ slugify e.name]
     else if e.id ≠ "" then ["set_" ++ slugify e.id]
     else ["set_field_" ++ e.randSuffix])
  else []

/-- `generateToolName(element, prefix, context)`; `none` is the skip
sentinel (`null`). -/
def generateToolName (e : Elem) (pfx : String) (context : String) : Option String :=
  if e.toolname ≠ "" then none
  else
    let toolName :=
      joinParts ((if pfx ≠ "" then [pfx] else []) ++ nameCandidates e context)
    if toolName = "" then none else some toolName

/- ── generateDescription (src/index.js lines 96-140) ──────────────────── -/

/-- `i.name || i.id || i.placeholder` for the form-description field list. -/
def ctlDescName (c : Control) : String :=
  if c.name ≠ "" then c.name else if c.id ≠ "" then c.id else c.placeholder

/-- `generateDescription(element, context)`. -/
def generateDescription (e : Elem) (context : String) : String :=
  let text := truncTake 50 (jsTrim e.textContent)
  if context = "form" then
    let fieldNames := ((e.controls.map ctlDescName).filter (fun s => s ≠ "")).take 5
    let desc0 :=
      if e.ariaLabel ≠ "" then "Submit: " ++ e.ariaLabel
      else if e.title ≠ "" then "Submit: " ++ e.title
      else "Submit a form"
    if fieldNames.length > 0 then desc0 ++ " (fields: " ++ joinComma fieldNames ++ ")"
    else desc0
  else if context = "button" then
    if e.ariaLabel ≠ "" then "Click action: " ++ e.ariaLabel
    else if e.title ≠ "" then "Click action: " ++ e.title
    else if text ≠ "" then "Click: " ++ text
    else "Trigger a button action"
  else if context = "link" then
    if e.ariaLabel ≠ "" then "Navigate to: " ++ e.ariaLabel
    else if text ≠ "" then "Navigate to: " ++ text
    else "Navigate to " ++ e.href.getD ""
  else if context = "input" then
    let ty := if e.etype ≠ "" then e.etype else "text"
    let nm := if e.name ≠ "" then e.name else if e.id ≠ "" then e.id else ""
    if e.placeholder ≠ "" then
      "Set " ++ (if nm ≠ "" then nm else "field") ++ ": " ++ e.placeholder
    else "Set " ++ ty ++ " field: " ++ nm
  else "Interact with page element"

/- ── scanForm (src/index.js lines 144-221) ────────────────────────────── -/

/-- A JSON-Schema property, with the numeric payload type `α` abstract
(`parseFloat` is external to the repository). -/
structure SchemaProp (α : Type) where
  type : String := "string"
  format : Option String := none
  description : Option String := none
  minimum : Option α := none
  maximum : Option α := none
  enum : Option (List String) := none
  pattern : Option String := none
deriving DecidableEq

/-- The object schema returned by `scanForm`; `required = []` models the
spread `...(required.length > 0 ? { required } : {})` (key absent). -/
structure Schema (α : Type) where
  type : String := "object"
  properties : List (String × SchemaProp α) := []
  required : List String := []
deriving DecidableEq

/-- `input.name || input.id`. -/
def ctlFieldName (c : Control) : String :=
  if c.name ≠ "" then c.name else c.id

/-- The type-switch of the `scanForm` loop body: the `prop` object right
after the `switch (input.type)` statement. -/
def scanFormPropBase {α : Type} (pf : String → α) (c : Control) : SchemaProp α :=
  if c.type = "number" ∨ c.type = "range" then
    { type := "number"
      minimum := if c.min ≠ "" then some (pf c.min) else none
      maximum := if c.max ≠ "" then some (pf c.max) else none }
  else if c.type = "checkbox" then { type := "boolean" }
  else if c.type = "email" then { type := "string", format := some "email" }
  else if c.type = "url" then { type := "string", format := some "uri" }
  else if c.type = "date" then { type := "string", format := some "date" }
  else if c.type = "tel" then { type := "string", format := some "phone" }
  else { type := "string" }

/-- The label/placeholder description assignment of the `scanForm` loop. -/
def applyDesc {α : Type} (e : Elem) (c : Control) (p : SchemaProp α) : SchemaProp α :=
  match e.labels.find? (fun lb => lb.1 = c.id) with
  | some lb => { p with description := some (jsTrim lb.2) }
  | none =>
    if c.placeholder ≠ "" then { p with description := some c.placeholder } else p

/-- The SELECT/enum assignment of the `scanForm` loop. -/
def applyEnum {α : Type} (c : Control) (p : SchemaProp α) : SchemaProp α :=
  if c.tagName = "SELECT" then
    let options := c.options.filter (fun v => v ≠ "")
    if 0 < options.length ∧ options.length ≤ 20 then { p with enum := some options }
    else p
  else p

/-- The pattern assignment of the `scanForm` loop. -/
def applyPattern {α : Type} (c : Control) (p : SchemaProp α) : SchemaProp α :=
  if c.pattern ≠ "" then { p with pattern := some c.pattern } else p

/-- The `prop` object built for one control by the `scanForm` loop body
(the sequential mutations of the source, applied in order). -/
def scanFormProp {α : Type} (pf : String → α) (e : Elem) (c : Control) : SchemaProp α :=
  applyPattern c (applyEnum c (applyDesc e c (scanFormPropBase pf c)))

/-- JS object assignment `properties[fieldName] = prop`: overwrite in place
when the key exists, else append. -/
def upsertProp {α : Type} (props : List (String × SchemaProp α)) (k : String)
    (v : SchemaProp α) : List (String × SchemaProp α) :=
  if props.any (fun p => p.1 = k) then
    props.map (fun p => if p.1 = k then (k, v) else p)
  else props ++ [(k, v)]

/-- The two `continue` guards of the `scanForm` loop. -/
def ctlSkip (c : Control) : Bool :=
  ctlFieldName c = "" || c.type = "hidden" || c.type = "submit"

/-- One iteration of the `scanForm` loop over `(properties, required)`. -/
def scanFormStep {α : Type} (pf : String → α) (e : Elem)
    (acc : List (String × SchemaProp α) × List String) (c : Control) :
    List (String × SchemaProp α) × List String :=
  if ctlSkip c then acc
  else
    let fn := ctlFieldName c
    (upsertProp acc.1 fn (scanFormProp pf e c), if c.required then acc.2 ++ [fn] else acc.2)

/-- `scanForm(form)` (src/index.js lines 144-221). -/
def scanForm {α : Type} (pf : String → α) (e : Elem) : Schema α :=
  let r := e.controls.foldl (scanFormStep pf e) ([], [])
  { type := "object", properties := r.1, required := r.2 }

/- ── handlers (src/index.js lines 225-290) ────────────────────────────── -/

/-- A JS value passed in a handler input mapping. -/
inductive JSVal
  | vStr (s : String)
  | vBool (b : Bool)
  | vNum (n : Int)
deriving DecidableEq

/-- JS `Boolean(value)`. -/
def JSVal.toBool : JSVal → Bool
  | .vStr s => s ≠ ""
  | .vBool b => b
  | .vNum n => n ≠ 0

/-- JS string coercion on assignment to `.value`. -/
def JSVal.toStr : JSVal → String
  | .vStr s => s
  | .vBool b => if b then "true" else "false"
  | .vNum n => toString n

/-- A synthetic event dispatched by a handler; `target = some i` is the
`i`-th control of the form, `none` is the form element itself. -/
structure DEvent where
  type : String
  bubbles : Bool
  cancelable : Bool
  target : Option Nat
deriving DecidableEq

/-- `new Event("input", { bubbles: true })` dispatched on control `i`. -/
def inputEvent (i : Nat) : DEvent := ⟨"input", true, false, some i⟩

/-- `new Event("change", { bubbles: true })` dispatched on control `i`. -/
def changeEvent (i : Nat) : DEvent := ⟨"change", true, false, some i⟩

/-- `new Event("submit", { bubbles: true, cancelable: true })` on the form. -/
def submitEvent : DEvent := ⟨"submit", true, true, none⟩

/-- The result object returned by a form handler. -/
structure FormResult where
  success : Bool
  message : String
  fields : List String
deriving DecidableEq

/-- JS `fieldName in input` on the input-mapping object. -/
def hasKey (input : List (String × JSVal)) (k : String) : Bool :=
  input.any (fun p => p.1 = k)

/-- JS `input[fieldName]` (key assumed present; objects have unique keys). -/
def getKey (input : List (String × JSVal)) (k : String) : JSVal :=
  ((input.find? (fun p => p.1 = k)).map (fun p => p.2)).getD (.vStr "")

/-- The write performed on one targeted control (`checked` for checkboxes,
`value` otherwise; the source's SELECT branch also assigns `value`). -/
def writeControl (v : JSVal) (c : Control) : Control :=
  if c.type = "checkbox" then { c with checked := v.toBool }
  else if c.tagName = "SELECT" then { c with value := v.toStr }
  else { c with value := v.toStr }

/-- The fill loop of the form handler: returns the updated control list and
the `input` / `change` events dispatched, in order (`i` = index of the
first control). -/
def formFillLoop (input : List (String × JSVal)) : Nat → List Control → List Control × List DEvent
  | _, [] => ([], [])
  | i, c :: rest =>
    if ctlFieldName c = "" || !(hasKey input (ctlFieldName c)) then
      (c :: (formFillLoop input (i + 1) rest).1, (formFillLoop input (i + 1) rest).2)
    else
      (writeControl (getKey input (ctlFieldName c)) c :: (formFillLoop input (i + 1) rest).1,
        inputEvent i :: changeEvent i :: (formFillLoop input (i + 1) rest).2)

/-- One invocation of a form handler: final form, dispatched events, result. -/
structure HandlerRun where
  form : Elem
  events : List DEvent
  result : FormResult
deriving DecidableEq

/-- `createFormHandler(form)` applied to an input mapping
(src/index.js lines 225-258). -/
def createFormHandler (form : Elem) (input : List (String × JSVal)) : HandlerRun :=
  let r := formFillLoop input 0 form.controls
  { form := { form with controls := r.1 }
    events := r.2 ++ [submitEvent]
    result :=
      { success := true
        message := "Form submitted with " ++ toString (input.map Prod.fst).length ++ " fields"
        fields := input.map Prod.fst } }

/-- The result object returned by a button handler. -/
structure ButtonResult where
  success : Bool
  message : String
deriving DecidableEq

/-- `createButtonHandler(button)` (src/index.js lines 262-270); the `Bool`
records that native activation (`.click()`) was invoked. -/
def createButtonHandler (button : Elem) : Bool × ButtonResult :=
  (true,
   ⟨true, "Clicked: " ++
     (let t := truncTake 50 (jsTrim button.textContent)
      if t ≠ "" then t else "button")⟩)

/-- The result object returned by a link handler. -/
structure LinkResult where
  success : Bool
  url : Option String := none
  text : Option String := none
  message : String
deriving DecidableEq

/-- `createLinkHandler(link)` (src/index.js lines 274-290).
`resolve loc href` models `new URL(href, window.location.href).toString()`
(URL resolution is external); the `Bool` records whether `.click()` was
invoked — the handler never assigns to `window.location`, so the only
possible activation is that click. -/
def createLinkHandler (resolve : String → String → String) (loc : String) (link : Elem) :
    Bool × LinkResult :=
  match link.href with
  | some href =>
    if href ≠ "" ∧ ¬ jsStartsWith href "javascript:" then
      (false,
       { success := true
         url := some (resolve loc href)
         text := some (truncTake 50 (jsTrim link.textContent))
         message := "Link target: " ++ href })
    else (true, { success := true, message := "Link activated" })
  | none => (true, { success := true, message := "Link activated" })

/- ── registry (src/index.js lines 294-348, 481-510) ───────────────────── -/

/-- The `annotations` object of a tool descriptor. -/
structure Annotations where
  readOnlyHint : Option Bool := none
  destructiveHint : Option Bool := none
deriving DecidableEq

/-- The handler closure stored in a descriptor, identified by its kind and
the live element it captured (handlers close over the element by
reference). -/
inductive HandlerSpec
  | formH (e : Elem)
  | buttonH (e : Elem)
  | linkH (e : Elem)
deriving DecidableEq

/-- A stored tool descriptor.  `annotations = none` models a descriptor
built without an `annotations` key. -/
structure Tool (α : Type) where
  name : String
  description : String
  inputSchema : Schema α
  handler : HandlerSpec
  annotations : Option Annotations := none
deriving DecidableEq

/-- Registry state: the insertion-ordered `registeredTools` map and the
`toolCount` counter (src/index.js lines 296-297). -/
structure RegState (α : Type) where
  tools : List (Tool α) := []
  toolCount : Nat := 0
deriving DecidableEq

/-- What `registerWebMCPTool` did with a submission.  `droppedCapacity`
corresponds to the branch that emits the max-tools diagnostic via `log`
(printed when `config.debug` is set); `stored` corresponds to the branch
that stores the descriptor and invokes `config.onToolRegistered`. -/
inductive RegOutcome
  | droppedCapacity
  | droppedDuplicate
  | stored
deriving DecidableEq

/-- `registeredTools.has(name)`. -/
def hasToolName {α : Type} (st : RegState α) (n : String) : Bool :=
  st.tools.any (fun t => t.name = n)

/-- `registerWebMCPTool(tool)` (src/index.js lines 321-348).  The external
sink call (`mc.registerTool`, wrapped in try/catch) has no effect on the
registry state and is absorbed. -/
def registerWebMCPTool {α : Type} (maxTools : Nat) (st : RegState α) (t : Tool α) :
    RegState α × RegOutcome :=
  if st.toolCount ≥ maxTools then (st, .droppedCapacity)
  else if hasToolName st t.name then (st, .droppedDuplicate)
  else ({ tools := st.tools ++ [t], toolCount := st.toolCount + 1 }, .stored)

/-- The exported descriptor shape produced by `getTools`. -/
structure ExportedTool (α : Type) where
  name : String
  description : String
  inputSchema : Schema α
  annotations : Option Annotations
deriving DecidableEq

/-- The per-descriptor projection inside `getTools`. -/
def exportTool {α : Type} (t : Tool α) : ExportedTool α :=
  ⟨t.name, t.description, t.inputSchema, t.annotations⟩

/-- `getTools()` (src/index.js lines 481-488). -/
def getTools {α : Type} (st : RegState α) : List (ExportedTool α) :=
  st.tools.map exportTool

/-- `destroy()`'s effect on registry state (src/index.js lines 501-510):
`registeredTools.clear()` and `toolCount = 0`. -/
def destroy {α : Type} (_st : RegState α) : RegState α :=
  { tools := [], toolCount := 0 }

/- ── scan (src/index.js lines 352-443) ────────────────────────────────── -/

/-- The candidate element sets of one scan pass.  Selector evaluation
(`document.querySelectorAll`) is external, so each phase's candidate list
is an input: `forms`, `buttons`, `navLinks` for phases 1-3, and one
element list per `config.include` selector for phase 4, all in document
order. -/
structure Page where
  forms : List Elem := []
  buttons : List Elem := []
  navLinks : List Elem := []
  includeElems : List (List Elem) := []

/-- The descriptor literal registered by phase 1 for a form. -/
def mkFormTool {α : Type} (pf : String → α) (toolName : String) (form : Elem) : Tool α :=
  { name := toolName
    description := generateDescription form "form"
    inputSchema := scanForm pf form
    handler := .formH form
    annotations := some { readOnlyHint := some false, destructiveHint := some false } }

/-- The descriptor literal registered by phase 2 for a button. -/
def mkButtonTool {α : Type} (toolName : String) (button : Elem) : Tool α :=
  { name := toolName
    description := generateDescription button "button"
    inputSchema := { type := "object" }
    handler := .buttonH button
    annotations := some { readOnlyHint := some false } }

/-- The descriptor literal registered by phase 3 for a navigation link. -/
def mkLinkTool {α : Type} (toolName : String) (link : Elem) : Tool α :=
  { name := toolName
    description := generateDescription link "link"
    inputSchema := { type := "object" }
    handler := .linkH link
    annotations := some { readOnlyHint := some true } }

/-- The descriptor literal registered by phase 4 for an extra-selector
element (note: the source passes no `annotations` key here). -/
def mkIncludeTool {α : Type} (pf : String → α) (toolName : String) (context : String)
    (el : Elem) : Tool α :=
  { name := toolName
    description := generateDescription el context
    inputSchema := if context = "form" then scanForm pf el else { type := "object" }
    handler := if context = "form" then .formH el else .buttonH el
    annotations := none }

/-- Phase 1, one form (src/index.js lines 357-377). -/
def scanFormPhaseStep {α : Type} (pf : String → α) (pfx : String) (maxTools : Nat)
    (st : RegState α) (form : Elem) : RegState α :=
  if form.excluded then st
  else if form.toolname ≠ "" then st
  else
    match generateToolName form pfx "form" with
    | none => st
    | some toolName =>
      if (scanForm pf form).properties.length = 0 then st
      else (registerWebMCPTool maxTools st (mkFormTool pf toolName form)).1

/-- Phase 2, one button (src/index.js lines 380-398). -/
def scanButtonPhaseStep {α : Type} (pfx : String) (maxTools : Nat)
    (st : RegState α) (button : Elem) : RegState α :=
  if button.excluded then st
  else if button.inForm then st
  else if jsTrim button.textContent = "" ∧ button.ariaLabel = "" then st
  else
    match generateToolName button pfx "button" with
    | none => st
    | some toolName => (registerWebMCPTool maxTools st (mkButtonTool toolName button)).1

/-- Phase 3, one navigation link (src/index.js lines 401-418). -/
def scanLinkPhaseStep {α : Type} (pfx : String) (maxTools : Nat)
    (st : RegState α) (link : Elem) : RegState α :=
  if link.excluded then st
  else
    match link.href with
    | none => st
    | some href =>
      if href = "" ∨ href = "#" ∨ jsStartsWith href "javascript:" = true then st
      else
        match generateToolName link pfx "link" with
        | none => st
        | some toolName => (registerWebMCPTool maxTools st (mkLinkTool toolName link)).1

/-- Phase 4, one extra-selector element (src/index.js lines 421-440). -/
def scanIncludeStep {α : Type} (pf : String → α) (pfx : String) (maxTools : Nat)
    (st : RegState α) (el : Elem) : RegState α :=
  if el.excluded then st
  else
    let context := if el.tagName = "FORM" then "form" else "button"
    match generateToolName el pfx context with
    | none => st
    | some toolName => (registerWebMCPTool maxTools st (mkIncludeTool pf toolName context el)).1

/-- Phases 1-3 of one scan pass. -/
def scanPhases123 {α : Type} (pf : String → α) (pfx : String) (maxTools : Nat)
    (page : Page) (st : RegState α) : RegState α :=
  let st1 := page.forms.foldl (scanFormPhaseStep pf pfx maxTools) st
  let st2 := page.buttons.foldl (scanButtonPhaseStep pfx maxTools) st1
  page.navLinks.foldl (scanLinkPhaseStep pfx maxTools) st2

/-- `scan()` (src/index.js lines 352-443): all four phases in order. -/
def scan {α : Type} (pf : String → α) (pfx : String) (maxTools : Nat)
    (page : Page) (st : RegState α) : RegState α :=
  page.includeElems.foldl (fun s els => els.foldl (scanIncludeStep pf pfx maxTools) s)
    (scanPhases123 pf pfx maxTools page st)

/- ── registry operation sequences ─────────────────────────────────────── -/

/-- An operation on the registry state: a tool submission (as performed by
any scan phase) or `destroy()`. -/
inductive RegOp (α : Type)
  | reg (t : Tool α)
  | destroyOp
deriving DecidableEq

/-- Apply one registry operation. -/
def applyOp {α : Type} (maxTools : Nat) (st : RegState α) : RegOp α → RegState α
  | .reg t => (registerWebMCPTool maxTools st t).1
  | .destroyOp => destroy st


/- ── registry lemmas ──────────────────────────────────────────────────── -/

/-- Fold preservation of an invariant (helper). -/
theorem foldl_inv {σ β : Type} (step : σ → β → σ) (Inv : σ → Prop)
    (hstep : ∀ s x, Inv s → Inv (step s x)) :
    ∀ (l : List β) (s : σ), Inv s → Inv (l.foldl step s)
  | [], _, h => h
  | x :: l, s, h => foldl_inv step Inv hstep (l := l) (s := step s x) (hstep s x h)

/-- Each registry submission either leaves the state unchanged or — below
capacity — appends exactly one descriptor and increments the counter
(helper). -/
theorem register_cases {α : Type} (maxTools : Nat) (st : RegState α) (t : Tool α) :
    (registerWebMCPTool maxTools st t).1 = st ∨
      (st.toolCount < maxTools ∧
        (registerWebMCPTool maxTools st t).1.tools = st.tools ++ [t] ∧
        (registerWebMCPTool maxTools st t).1.toolCount = st.toolCount + 1 ∧
        (registerWebMCPTool maxTools st t).2 = .stored) := by
  unfold registerWebMCPTool
  split
  · exact Or.inl rfl
  · split
    · exact Or.inl rfl
    · rename_i hcap _
      exact Or.inr ⟨by omega, rfl, rfl, rfl⟩

/-- A submission keeps `toolCount = tools.length` (helper). -/
theorem register_preserves_sync {α : Type} (maxTools : Nat) (st : RegState α) (t : Tool α)
    (h : st.toolCount = st.tools.length) :
    (registerWebMCPTool maxTools st t).1.toolCount
      = (registerWebMCPTool maxTools st t).1.tools.length := by
  rcases register_cases maxTools st t with heq | ⟨_, ht, hc, _⟩
  · rw [heq]; exact h
  · rw [ht, hc, List.length_append, h]; rfl

/-- Claim C10: after every sequence of registrations and destroys, the
`toolCount` counter equals the registry size; every submission either
leaves the state unchanged or stores one descriptor and increments the
counter; `destroy` resets both to zero.  Hence the capacity check, which
reads `toolCount`, gates on exactly the current registry size. -/
theorem c10_counter_matches_registry_size {α : Type} (maxTools : Nat) (ops : List (RegOp α)) :
    ((ops.foldl (applyOp maxTools) {}).toolCount
        = (ops.foldl (applyOp maxTools) {}).tools.length) ∧
      (∀ (st : RegState α) (t : Tool α),
        (registerWebMCPTool maxTools st t).1 = st ∨
          ((registerWebMCPTool maxTools st t).1.tools = st.tools ++ [t] ∧
            (registerWebMCPTool maxTools st t).1.toolCount = st.toolCount + 1)) ∧
      (∀ st : RegState α, destroy st = { tools := [], toolCount := 0 }) := by
  refine ⟨?_, ?_, fun _ => rfl⟩
  · refine foldl_inv (applyOp maxTools) (fun s => s.toolCount = s.tools.length) ?_ ops {} rfl
    intro s x hs
    cases x with
    | reg t => exact register_preserves_sync maxTools s t hs
    | destroyOp => rfl
  · intro st t
    rcases register_cases maxTools st t with heq | ⟨_, ht, hc, _⟩
    · exact Or.inl heq
    · exact Or.inr ⟨ht, hc⟩

/-- Claim C2: with a positive `maxTools`, after any sequence of tool
submissions the registry never holds more than `maxTools` descriptors, and
a submission attempted at capacity is dropped with the capacity diagnostic
and leaves the registry unchanged. -/
theorem c2_registry_capacity {α : Type} (maxTools : Nat) (_hpos : 0 < maxTools)
    (ts : List (Tool α)) :
    ((ts.map RegOp.reg).foldl (applyOp maxTools) {}).tools.length ≤ maxTools ∧
      (∀ (st : RegState α) (t : Tool α), st.toolCount = st.tools.length →
        maxTools ≤ st.tools.length →
        registerWebMCPTool maxTools st t = (st, .droppedCapacity)) := by
  constructor
  · have h := foldl_inv (applyOp maxTools)
      (fun s => s.toolCount = s.tools.length ∧ s.tools.length ≤ maxTools) ?_ (ts.map .reg) {}
      ⟨rfl, Nat.zero_le _⟩
    · exact h.2
    · rintro s x ⟨hsync, hle⟩
      cases x with
      | destroyOp => exact ⟨rfl, Nat.zero_le _⟩
      | reg t =>
        refine ⟨register_preserves_sync maxTools s t hsync, ?_⟩
        show (registerWebMCPTool maxTools s t).1.tools.length ≤ maxTools
        rcases register_cases maxTools s t with heq | ⟨hlt, ht, _, _⟩
        · rw [heq]; exact hle
        · rw [ht, List.length_append]
          simp only [List.length_cons, List.length_nil]
          omega
  · intro st t hsync hcap
    unfold registerWebMCPTool
    rw [if_pos (by omega)]

/-- A concrete descriptor used by witnesses. -/
def toolA : Tool Int :=
  { name := "a", description := "", inputSchema := {}, handler := .buttonH {} }

/-- A second concrete descriptor used by witnesses. -/
def toolB : Tool Int :=
  { name := "b", description := "", inputSchema := {}, handler := .buttonH {} }

/-- `toolA` under the name `"a"` again (different description). -/
def toolA' : Tool Int :=
  { name := "a", description := "other", inputSchema := {}, handler := .buttonH {} }

/-- Witness for C2 at `maxTools = 1` with two concrete submissions. -/
theorem c2_registry_capacity_witness :
    (0 < 1) ∧
      (([toolA, toolB].map RegOp.reg).foldl (applyOp 1) {}).tools.length ≤ 1 ∧
      registerWebMCPTool 1 ⟨[toolA], 1⟩ toolB = (⟨[toolA], 1⟩, .droppedCapacity) :=
  ⟨by decide, (c2_registry_capacity 1 (by decide) [toolA, toolB]).1,
   (c2_registry_capacity 1 (by decide) []).2 ⟨[toolA], 1⟩ toolB (by decide) (by decide)⟩

/-- A name absent from the registry filters to nothing (helper). -/
theorem filter_name_nil {α : Type} (st : RegState α) (n : String)
    (h : hasToolName st n = false) :
    st.tools.filter (fun u => u.name = n) = [] := by
  rw [List.filter_eq_nil_iff]
  intro t ht
  have := (List.any_eq_false).1 h t ht
  simpa using this

/-- Claim C5: two submissions carrying the same name (capacity not yet
reached, name fresh): the first is stored as submitted, the second leaves
the registry unchanged and is not stored (so `onToolRegistered`, invoked
exactly on the `stored` branch, fires exactly once for that name), and the
registry holds exactly one descriptor with that name — the first one,
unmodified. -/
theorem c5_first_registration_wins {α : Type} (maxTools : Nat) (st : RegState α)
    (t1 t2 : Tool α) (hname : t2.name = t1.name)
    (hfresh : hasToolName st t1.name = false)
    (hcap : st.toolCount < maxTools) :
    (registerWebMCPTool maxTools st t1).2 = .stored ∧
      (registerWebMCPTool maxTools st t1).1.tools = st.tools ++ [t1] ∧
      (registerWebMCPTool maxTools (registerWebMCPTool maxTools st t1).1 t2).1
        = (registerWebMCPTool maxTools st t1).1 ∧
      (registerWebMCPTool maxTools (registerWebMCPTool maxTools st t1).1 t2).2 ≠ .stored ∧
      ((registerWebMCPTool maxTools st t1).1.tools.filter (fun u => u.name = t1.name))
        = [t1] := by
  have hreg1 : registerWebMCPTool maxTools st t1
      = ({ tools := st.tools ++ [t1], toolCount := st.toolCount + 1 }, .stored) := by
    unfold registerWebMCPTool
    rw [if_neg (by omega), if_neg (by simp [hfresh])]
  have hhas : hasToolName (RegState.mk (st.tools ++ [t1]) (st.toolCount + 1)) t2.name = true := by
    simp [hasToolName, hname]
  refine ⟨by rw [hreg1], by rw [hreg1], ?_, ?_, ?_⟩
  · rw [hreg1]
    show (registerWebMCPTool maxTools _ t2).1 = _
    unfold registerWebMCPTool
    split
    · rfl
    · rfl
  · rw [hreg1]
    show (registerWebMCPTool maxTools _ t2).2 ≠ _
    unfold registerWebMCPTool
    split
    · simp
    · simp
  · rw [hreg1]
    simp only [List.filter_append, filter_name_nil st t1.name hfresh, List.nil_append]
    simp

/-- Witness for C5: registering the name `"a"` twice at `maxTools = 50`. -/
theorem c5_first_registration_wins_witness :
    (registerWebMCPTool 50 ({} : RegState Int) toolA).2 = .stored ∧
      (registerWebMCPTool 50 ({} : RegState Int) toolA).1.tools = [toolA] ∧
      (registerWebMCPTool 50 (registerWebMCPTool 50 ({} : RegState Int) toolA).1 toolA').1
        = (registerWebMCPTool 50 ({} : RegState Int) toolA).1 ∧
      (registerWebMCPTool 50 (registerWebMCPTool 50 ({} : RegState Int) toolA).1 toolA').2
        ≠ .stored ∧
      ((registerWebMCPTool 50 ({} : RegState Int) toolA).1.tools.filter
        (fun u => u.name = toolA.name)) = [toolA] :=
  c5_first_registration_wins 50 {} toolA toolA' (by decide) (by decide) (by decide)


/- ── C7: link handler ─────────────────────────────────────────────────── -/

/-- Unfolding of `createLinkHandler` at a present href (helper). -/
theorem createLinkHandler_some (resolve : String → String → String) (loc : String)
    (link : Elem) (h : String) (hhref : link.href = some h) :
    createLinkHandler resolve loc link =
      if h ≠ "" ∧ ¬ jsStartsWith h "javascript:" then
        (false,
          { success := true
            url := some (resolve loc h)
            text := some (truncTake 50 (jsTrim link.textContent))
            message := "Link target: " ++ h })
      else (true, { success := true, url := none, text := none, message := "Link activated" }) := by
  rw [createLinkHandler.eq_def, hhref]

/-- Claim C7: with a (non-empty) `href` that does not use the
`javascript:` pseudo-scheme, the link handler resolves the href against
the current location and returns `{success:true, url, text, message}`
without invoking native activation (the `Bool` component, recording
`.click()`, is `false`; the handler contains no navigation effect at
all); with a `javascript:` href it clicks the element and returns the
generic success. -/
theorem c7_link_handler_no_navigation (resolve : String → String → String) (loc : String)
    (link : Elem) (h : String) (hhref : link.href = some h) :
    (h ≠ "" → jsStartsWith h "javascript:" = false →
      createLinkHandler resolve loc link =
        (false,
          { success := true
            url := some (resolve loc h)
            text := some (truncTake 50 (jsTrim link.textContent))
            message := "Link target: " ++ h })) ∧
      (jsStartsWith h "javascript:" = true →
        createLinkHandler resolve loc link =
          (true, { success := true, url := none, text := none, message := "Link activated" })) := by
  constructor
  · intro hne hjs
    rw [createLinkHandler_some resolve loc link h hhref,
      if_pos ⟨hne, by simp [hjs]⟩]
  · intro hjs
    rw [createLinkHandler_some resolve loc link h hhref,
      if_neg (by simp [hjs])]

/-- Witness for C7: a `/cart` link (no activation, resolved URL returned)
and a `javascript:void(0)` link (clicked, generic success), with a
concrete resolver. -/
theorem c7_link_handler_no_navigation_witness :
    createLinkHandler (fun base href => base ++ href) "https://shop.example"
        { tagName := "A", textContent := "Cart", href := some "/cart" } =
      (false,
        { success := true
          url := some "https://shop.example/cart"
          text := some "Cart"
          message := "Link target: /cart" }) ∧
      createLinkHandler (fun base href => base ++ href) "https://shop.example"
          { tagName := "A", textContent := "x", href := some "javascript:void(0)" } =
        (true, { success := true, url := none, text := none, message := "Link activated" }) := by
  constructor
  · rw [(c7_link_handler_no_navigation (fun base href => base ++ href) "https://shop.example"
      { tagName := "A", textContent := "Cart", href := some "/cart" } "/cart" rfl).1
      (by decide) (by decide)]
    decide
  · rw [(c7_link_handler_no_navigation (fun base href => base ++ href) "https://shop.example"
      { tagName := "A", textContent := "x", href := some "javascript:void(0)" }
      "javascript:void(0)" rfl).2 (by decide)]


/- ── C6: empty candidates and the prefix ──────────────────────────────── -/

/-- `a ++ b` is non-empty when `a` is (helper). -/
theorem append_ne_empty_left (a b : String) (ha : a ≠ "") : a ++ b ≠ "" := by
  intro h
  apply ha
  cases a with
  | mk la =>
    cases b with
    | mk lb =>
      have hd : la ++ lb = [] := congrArg String.data h
      rcases List.append_eq_nil.1 hd with ⟨h1, _⟩
      rw [h1]

/-- `joinParts` of a list headed by a non-empty part is non-empty (helper). -/
theorem joinParts_cons_ne_empty (p : String) (l : List String) (hp : p ≠ "") :
    joinParts (p :: l) ≠ "" := by
  cases l with
  | nil => exact hp
  | cons q rest =>
    show p ++ "_" ++ joinParts (q :: rest) ≠ ""
    exact append_ne_empty_left _ _ (append_ne_empty_left _ _ hp)

/-- An element whose every name candidate slugs to the empty string: its
`id` is non-empty but consists of stripped characters only. -/
def c6Elem : Elem := { tagName := "FORM", id := "???" }

/-- Counterexample to claim C6: with the non-empty prefix `"p"`, an
element whose only candidate (`id = "???"`) slugs to `""` yields the name
`"p_"` — the prefix joined with the empty candidate — not the skip
sentinel. -/
theorem c6_counterexample :
    generateToolName c6Elem "p" "form" = some "p_" ∧
      generateToolName c6Elem "p" "form" ≠ none := by
  exact ⟨rfl, by decide⟩

/-- Claim C6 as amended: the name generator returns the skip sentinel
unconditionally when the manual `toolname` marker is present; with an
empty configured prefix it returns the sentinel for EVERY element and
EVERY role context whose chosen candidate slugs to the empty string (and
likewise when the context yields no candidate at all); but with a
NON-empty prefix the joined name is never empty, so the sentinel is never
returned for an unmarked element — an empty candidate yields the prefix
followed by `_`. -/
theorem c6_empty_candidate_behaviour (e : Elem) (pfx context : String) :
    (e.toolname ≠ "" → generateToolName e pfx context = none) ∧
      (e.toolname = "" → pfx ≠ "" → generateToolName e pfx context ≠ none) ∧
      (e.toolname = "" → ∀ s, nameCandidates e context = [s] → s = "" →
        generateToolName e "" context = none) ∧
      (e.toolname = "" → nameCandidates e context = [] →
        generateToolName e "" context = none) := by
  refine ⟨?_, ?_, ?_, ?_⟩
  · intro ht
    unfold generateToolName
    rw [if_pos ht]
  · intro ht hp
    unfold generateToolName
    rw [if_neg (by simp [ht])]
    simp only [if_pos hp, List.singleton_append]
    rw [if_neg (joinParts_cons_ne_empty pfx (nameCandidates e context) hp)]
    intro hc
    exact Option.noConfusion hc
  · intro ht s hcand hs
    unfold generateToolName
    rw [if_neg (by simp [ht])]
    simp only [if_neg (by simp : ¬("" : String) ≠ ""), List.nil_append, hcand, hs]
    rfl
  · intro ht hcand
    unfold generateToolName
    rw [if_neg (by simp [ht])]
    simp only [if_neg (by simp : ¬("" : String) ≠ ""), List.nil_append, hcand]
    rfl

/-- A button-role element whose only candidate (`aria-label = "???"`)
slugs to the empty string. -/
def c6Btn : Elem := { tagName := "BUTTON", ariaLabel := "???" }

/-- Witness for C6 (amended): the marker case; the non-empty-prefix case
over an all-stripped id; the empty-prefix sentinel for a form whose id
candidate slugs to empty AND for a button whose aria-label candidate
slugs to empty (two different role contexts); and the no-candidate
context. -/
theorem c6_empty_candidate_behaviour_witness :
    generateToolName { toolname := "t" } "p" "form" = none ∧
      generateToolName c6Elem "p" "form" ≠ none ∧
      generateToolName c6Elem "" "form" = none ∧
      generateToolName c6Btn "" "button" = none ∧
      generateToolName c6Elem "" "other" = none :=
  ⟨(c6_empty_candidate_behaviour { toolname := "t" } "p" "form").1 (by decide),
   (c6_empty_candidate_behaviour c6Elem "p" "form").2.1 (by decide) (by decide),
   (c6_empty_candidate_behaviour c6Elem "" "form").2.2.1 (by decide) "" (by decide) rfl,
   (c6_empty_candidate_behaviour c6Btn "" "button").2.2.1 (by decide) "" (by decide) rfl,
   (c6_empty_candidate_behaviour c6Elem "" "other").2.2.2 (by decide) (by decide)⟩

/- ── C3: empty-schema forms per phase ─────────────────────────────────── -/

/-- A form with no identifiable controls (scanned `properties` empty). -/
def c3Form : Elem := { tagName := "FORM", id := "f1" }

/-- Counterexample to claim C3: the form `c3Form` scans to an empty
`properties` mapping, yet a scan whose extra-selector phase (phase 4)
matches it registers a tool for it — the empty-schema skip is applied
only by the dedicated form phase. -/
theorem c3_counterexample :
    (scanForm (fun _ => (0 : Int)) c3Form).properties = [] ∧
      ((scan (fun _ => (0 : Int)) "" 50 { includeElems := [[c3Form]] } {}).tools.map
        (fun t => (t.name, t.inputSchema.properties))) = [("f1", [])] := by
  decide

/-- Claim C3 as amended: a form whose scanned `properties` is empty is
skipped by the dedicated form phase (phase 1), but the caller-supplied
extra-selector phase (phase 4) performs no such check: a non-excluded
FORM element with a generated name is submitted to the registry there
regardless of schema emptiness. -/
theorem c3_empty_schema_phase1_only {α : Type} (pf : String → α) (pfx : String)
    (maxTools : Nat) (st : RegState α) (form : Elem)
    (hempty : (scanForm pf form).properties = []) :
    scanFormPhaseStep pf pfx maxTools st form = st ∧
      (∀ n, form.excluded = false → form.tagName = "FORM" →
        generateToolName form pfx "form" = some n →
        scanIncludeStep pf pfx maxTools st form
          = (registerWebMCPTool maxTools st (mkIncludeTool pf n "form" form)).1) := by
  constructor
  · unfold scanFormPhaseStep
    split
    · rfl
    · split
      · rfl
      · split
        · rfl
        · rw [if_pos (by simp [hempty])]
  · intro n hexc htag hname
    simp [scanIncludeStep, hexc, htag, hname]

/-- Witness for C3 (amended) at the concrete form `c3Form`. -/
theorem c3_empty_schema_phase1_only_witness :
    scanFormPhaseStep (fun _ => (0 : Int)) "" 50 {} c3Form = {} ∧
      scanIncludeStep (fun _ => (0 : Int)) "" 50 {} c3Form
        = (registerWebMCPTool 50 {}
            (mkIncludeTool (fun _ => (0 : Int)) "f1" "form" c3Form)).1 :=
  ⟨(c3_empty_schema_phase1_only (fun _ => (0 : Int)) "" 50 {} c3Form (by decide)).1,
   (c3_empty_schema_phase1_only (fun _ => (0 : Int)) "" 50 {} c3Form (by decide)).2
     "f1" (by decide) (by decide) (by decide)⟩

/- ── C9: annotations and the export shape ─────────────────────────────── -/

/-- A button-like element reachable only through an extra selector. -/
def c9Btn : Elem := { tagName := "DIV", id := "act", textContent := "Go" }

/-- Counterexample to claim C9: a scan whose extra-selector phase matches
`c9Btn` stores a descriptor carrying NO annotations object, and `getTools`
exports it with `annotations` absent. -/
theorem c9_counterexample :
    ((scan (fun _ => (0 : Int)) "" 50 { includeElems := [[c9Btn]] } {}).tools.map
        (fun t => t.annotations)) = [none] ∧
      ((getTools (scan (fun _ => (0 : Int)) "" 50 { includeElems := [[c9Btn]] } {})).map
        (fun t => t.annotations)) = [none] := by
  decide

/-- Membership through a registry fold (helper). -/
theorem foldl_tools_mem {α β : Type} (step : RegState α → β → RegState α) (P : Tool α → Prop)
    (hstep : ∀ s x u, u ∈ (step s x).tools → u ∈ s.tools ∨ P u) :
    ∀ (l : List β) (s : RegState α) (u : Tool α),
      u ∈ (l.foldl step s).tools → u ∈ s.tools ∨ P u
  | [], _, _, h => Or.inl h
  | x :: l, s, u, h =>
    match foldl_tools_mem step P hstep l (step s x) u h with
    | Or.inr hp => Or.inr hp
    | Or.inl hmem => hstep s x u hmem

/-- Membership after one submission (helper). -/
theorem register_mem {α : Type} (maxTools : Nat) (st : RegState α) (t u : Tool α)
    (h : u ∈ (registerWebMCPTool maxTools st t).1.tools) : u ∈ st.tools ∨ u = t := by
  rcases register_cases maxTools st t with heq | ⟨_, ht, _, _⟩
  · rw [heq] at h
    exact Or.inl h
  · rw [ht] at h
    rcases List.mem_append.1 h with h1 | h1
    · exact Or.inl h1
    · exact Or.inr (List.mem_singleton.1 h1)

/-- Phase 1 adds only annotated descriptors (helper). -/
theorem scanFormPhaseStep_ann {α : Type} (pf : String → α) (pfx : String) (maxTools : Nat)
    (s : RegState α) (e : Elem) (u : Tool α)
    (h : u ∈ (scanFormPhaseStep pf pfx maxTools s e).tools) :
    u ∈ s.tools ∨ u.annotations.isSome = true := by
  unfold scanFormPhaseStep at h
  split at h
  · exact Or.inl h
  · split at h
    · exact Or.inl h
    · split at h
      · exact Or.inl h
      · split at h
        · exact Or.inl h
        · rcases register_mem _ _ _ _ h with h1 | h1
          · exact Or.inl h1
          · subst h1
            exact Or.inr rfl

/-- Phase 2 adds only annotated descriptors (helper). -/
theorem scanButtonPhaseStep_ann {α : Type} (pfx : String) (maxTools : Nat)
    (s : RegState α) (e : Elem) (u : Tool α)
    (h : u ∈ (scanButtonPhaseStep pfx maxTools s e).tools) :
    u ∈ s.tools ∨ u.annotations.isSome = true := by
  unfold scanButtonPhaseStep at h
  split at h
  · exact Or.inl h
  · split at h
    · exact Or.inl h
    · split at h
      · exact Or.inl h
      · split at h
        · exact Or.inl h
        · rcases register_mem _ _ _ _ h with h1 | h1
          · exact Or.inl h1
          · subst h1
            exact Or.inr rfl

/-- Phase 3 adds only annotated descriptors (helper). -/
theorem scanLinkPhaseStep_ann {α : Type} (pfx : String) (maxTools : Nat)
    (s : RegState α) (e : Elem) (u : Tool α)
    (h : u ∈ (scanLinkPhaseStep pfx maxTools s e).tools) :
    u ∈ s.tools ∨ u.annotations.isSome = true := by
  unfold scanLinkPhaseStep at h
  split at h
  · exact Or.inl h
  · split at h
    · exact Or.inl h
    · split at h
      · exact Or.inl h
      · split at h
        · exact Or.inl h
        · rcases register_mem _ _ _ _ h with h1 | h1
          · exact Or.inl h1
          · subst h1
            exact Or.inr rfl

/-- Claim C9 as amended: the descriptors registered by phases 1-3 carry
annotations objects with the per-phase hint values, and any descriptor
added to the registry by phases 1-3 has annotations present; the
extra-selector phase's descriptors carry no annotations; `getTools`
exports every stored descriptor as `{name, description, inputSchema,
annotations}` with the handler omitted (annotations absent for phase-4
descriptors). -/
theorem c9_annotations_by_phase {α : Type} (pf : String → α) (pfx : String) (maxTools : Nat)
    (page : Page) (st : RegState α) :
    (∀ (n : String) (form : Elem), (mkFormTool (α := α) pf n form).annotations
        = some { readOnlyHint := some false, destructiveHint := some false }) ∧
      (∀ (n : String) (button : Elem), (mkButtonTool (α := α) n button).annotations
        = some { readOnlyHint := some false, destructiveHint := none }) ∧
      (∀ (n : String) (link : Elem), (mkLinkTool (α := α) n link).annotations
        = some { readOnlyHint := some true, destructiveHint := none }) ∧
      (∀ (n context : String) (el : Elem),
        (mkIncludeTool pf n context el).annotations = none) ∧
      (∀ t, t ∈ (scanPhases123 pf pfx maxTools page st).tools →
        t ∈ st.tools ∨ t.annotations.isSome = true) ∧
      getTools st = st.tools.map (fun t =>
        ExportedTool.mk t.name t.description t.inputSchema t.annotations) := by
  refine ⟨fun _ _ => rfl, fun _ _ => rfl, fun _ _ => rfl, fun _ _ _ => rfl, ?_, rfl⟩
  intro t ht
  unfold scanPhases123 at ht
  rcases foldl_tools_mem (scanLinkPhaseStep pfx maxTools) _
      (fun s x u => scanLinkPhaseStep_ann pfx maxTools s x u) page.navLinks _ t ht
    with h2 | hp
  · rcases foldl_tools_mem (scanButtonPhaseStep pfx maxTools) _
        (fun s x u => scanButtonPhaseStep_ann pfx maxTools s x u) page.buttons _ t h2
      with h1 | hp
    · exact foldl_tools_mem (scanFormPhaseStep pf pfx maxTools) _
        (fun s x u => scanFormPhaseStep_ann pf pfx maxTools s x u) page.forms st t h1
    · exact Or.inr hp
  · exact Or.inr hp

/-- Witness for C9 (amended): the membership conjunct applied to a
one-form page whose registered descriptor is annotated. -/
theorem c9_annotations_by_phase_witness :
    ∀ t, t ∈ (scanPhases123 (fun _ => (0 : Int)) "" 50
        { forms := [{ tagName := "FORM", id := "f2",
                      controls := [{ name := "q" }] }] } {}).tools →
      t ∈ ({} : RegState Int).tools ∨ t.annotations.isSome = true :=
  (c9_annotations_by_phase (fun _ => (0 : Int)) "" 50
    { forms := [{ tagName := "FORM", id := "f2", controls := [{ name := "q" }] }] } {}).2.2.2.2.1

/- ── C1: form handler characterisation ────────────────────────────────── -/

/-- A control is targeted by an input mapping iff it has a field name and
that name is a key of the mapping. -/
def targetedCtl (input : List (String × JSVal)) (c : Control) : Bool :=
  ctlFieldName c ≠ "" && hasKey input (ctlFieldName c)

/-- The per-control effect of one handler invocation: targeted controls
are written, others are untouched. -/
def fillSpec (input : List (String × JSVal)) (c : Control) : Control :=
  if targetedCtl input c then writeControl (getKey input (ctlFieldName c)) c else c

/-- The `input`/`change` events dispatched by the fill loop: one bubbling
pair per targeted control, in document order. -/
def fillEvents (input : List (String × JSVal)) : Nat → List Control → List DEvent
  | _, [] => []
  | i, c :: rest =>
    if targetedCtl input c then
      inputEvent i :: changeEvent i :: fillEvents input (i + 1) rest
    else fillEvents input (i + 1) rest

/-- The fill loop is the compositional fill/events pair (helper). -/
theorem formFillLoop_eq (input : List (String × JSVal)) :
    ∀ (cs : List Control) (i : Nat),
      formFillLoop input i cs = (cs.map (fillSpec input), fillEvents input i cs) := by
  intro cs
  induction cs with
  | nil => intro i; rfl
  | cons c rest ih =>
    intro i
    unfold formFillLoop
    rw [ih (i + 1)]
    by_cases h1 : ctlFieldName c = ""
    · have ht : targetedCtl input c = false := by simp [targetedCtl, h1]
      rw [if_pos (by simp [h1])]
      simp [fillSpec, fillEvents, ht]
    · by_cases h2 : hasKey input (ctlFieldName c) = true
      · have ht : targetedCtl input c = true := by simp [targetedCtl, h1, h2]
        rw [if_neg (by simp [h1, h2])]
        simp [fillSpec, fillEvents, ht]
      · have h2' : hasKey input (ctlFieldName c) = false := by simpa using h2
        have ht : targetedCtl input c = false := by simp [targetedCtl, h2']
        rw [if_pos (by simp [h2'])]
        simp [fillSpec, fillEvents, ht]

/-- The fill loop never dispatches a `submit` event (helper). -/
theorem fillEvents_no_submit (input : List (String × JSVal)) :
    ∀ (cs : List Control) (i : Nat),
      (fillEvents input i cs).filter (fun ev => ev.type = "submit") = [] := by
  intro cs
  induction cs with
  | nil => intro i; rfl
  | cons c rest ih =>
    intro i
    unfold fillEvents
    by_cases h : targetedCtl input c
    · rw [if_pos h]
      simp [List.filter_cons, inputEvent, changeEvent, ih (i + 1)]
    · rw [if_neg h]
      exact ih (i + 1)

/-- Claim C1 as amended: one handler invocation writes exactly the
controls whose field key appears in the mapping (`checked` from the
boolean coercion for checkboxes, `value` otherwise), leaves every other
control untouched, dispatches one bubbling `input` and one bubbling
`change` event per written control in document order, followed by exactly
one bubbling, cancelable `submit` event on the form, and returns
`{success:true, message, fields}` where `fields` is the list of KEYS of
the input mapping (not the list of field names actually applied). -/
theorem c1_form_handler_behaviour (form : Elem) (input : List (String × JSVal)) :
    (createFormHandler form input).form.controls = form.controls.map (fillSpec input) ∧
      (createFormHandler form input).events
        = fillEvents input 0 form.controls ++ [submitEvent] ∧
      ((createFormHandler form input).events.filter
        (fun ev => ev.type = "submit")).length = 1 ∧
      (createFormHandler form input).result =
        { success := true
          message := "Form submitted with " ++ toString (input.map Prod.fst).length
            ++ " fields"
          fields := input.map Prod.fst } := by
  refine ⟨?_, ?_, ?_, rfl⟩
  · show (formFillLoop input 0 form.controls).1 = _
    rw [formFillLoop_eq input form.controls 0]
  · show (formFillLoop input 0 form.controls).2 ++ [submitEvent] = _
    rw [formFillLoop_eq input form.controls 0]
  · show (((formFillLoop input 0 form.controls).2 ++ [submitEvent]).filter
      (fun ev => ev.type = "submit")).length = 1
    rw [formFillLoop_eq input form.controls 0]
    simp [List.filter_append, fillEvents_no_submit input form.controls 0, submitEvent]

/-- A one-control form used by the C1 counterexample. -/
def c1Form : Elem := { tagName := "FORM", controls := [{ name := "query" }] }

/-- Counterexample to claim C1: invoked with the single-key mapping
`{ghost: "x"}` whose key matches no control, the handler writes nothing
(controls unchanged, no input/change events) yet returns
`fields = ["ghost"]` — the keys of the mapping, not the names actually
applied (which are none). -/
theorem c1_counterexample :
    (createFormHandler c1Form [("ghost", JSVal.vStr "x")]).result.fields = ["ghost"] ∧
      (createFormHandler c1Form [("ghost", JSVal.vStr "x")]).form.controls
        = c1Form.controls ∧
      (createFormHandler c1Form [("ghost", JSVal.vStr "x")]).events = [submitEvent] := by
  decide


/- ── C8: scanForm characterisation ────────────────────────────────────── -/

/-- Overwrite-in-place preserves every key (helper). -/
theorem any_key_map {α : Type} (props : List (String × SchemaProp α)) (k m : String)
    (v : SchemaProp α) :
    (props.map (fun p => if p.1 = k then (k, v) else p)).any (fun p => p.1 = m)
      = props.any (fun p => p.1 = m) := by
  induction props with
  | nil => rfl
  | cons p rest ih =>
    simp only [List.map_cons, List.any_cons, ih]
    by_cases hp : p.1 = k <;> simp [hp]

/-- `upsertProp` key membership: the updated mapping has key `m` iff the
original did or `m` is the inserted key (helper). -/
theorem upsertProp_any {α : Type} (props : List (String × SchemaProp α)) (k : String)
    (v : SchemaProp α) (m : String) :
    (upsertProp props k v).any (fun p => p.1 = m)
      = (props.any (fun p => p.1 = m) || decide (k = m)) := by
  unfold upsertProp
  split
  · rename_i hk
    rw [any_key_map]
    by_cases hm : k = m
    · subst hm
      simp [hk]
    · simp [hm]
  · simp [List.any_append]

/-- The `required` list collected by the `scanForm` fold: the field names
of the non-skipped, required controls in document order (helper). -/
theorem scanFormFold_required {α : Type} (pf : String → α) (e : Elem) :
    ∀ (cs : List Control) (props : List (String × SchemaProp α)) (req : List String),
      (cs.foldl (scanFormStep pf e) (props, req)).2
        = req ++ (cs.filter (fun c => !ctlSkip c && c.required)).map ctlFieldName := by
  intro cs
  induction cs with
  | nil => intro props req; simp
  | cons c cs ih =>
    intro props req
    rw [List.foldl_cons, List.filter_cons]
    by_cases h : ctlSkip c = true
    · rw [show scanFormStep pf e (props, req) c = (props, req) from by
        simp [scanFormStep, h]]
      simp [h, ih]
    · have h' : ctlSkip c = false := by simpa using h
      by_cases hr : c.required = true
      · rw [show scanFormStep pf e (props, req) c
            = (upsertProp props (ctlFieldName c) (scanFormProp pf e c),
               req ++ [ctlFieldName c]) from by simp [scanFormStep, h', hr]]
        rw [ih]
        simp [h', hr]
      · have hr' : c.required = false := by simpa using hr
        rw [show scanFormStep pf e (props, req) c
            = (upsertProp props (ctlFieldName c) (scanFormProp pf e c), req) from by
            simp [scanFormStep, h', hr']]
        rw [ih]
        simp [h', hr']

/-- The `scanForm` fold keeps `required` inside the property keys
(helper). -/
theorem scanFormFold_subset {α : Type} (pf : String → α) (e : Elem) :
    ∀ (cs : List Control) (props : List (String × SchemaProp α)) (req : List String),
      (∀ n ∈ req, props.any (fun p => p.1 = n) = true) →
      ∀ n ∈ (cs.foldl (scanFormStep pf e) (props, req)).2,
        (cs.foldl (scanFormStep pf e) (props, req)).1.any (fun p => p.1 = n) = true := by
  intro cs
  induction cs with
  | nil => intro props req hinv n hn; exact hinv n hn
  | cons c cs ih =>
    intro props req hinv
    rw [List.foldl_cons]
    by_cases h : ctlSkip c = true
    · rw [show scanFormStep pf e (props, req) c = (props, req) from by
        simp [scanFormStep, h]]
      exact ih props req hinv
    · have h' : ctlSkip c = false := by simpa using h
      have hup : ∀ n ∈ (if c.required = true then req ++ [ctlFieldName c] else req),
          (upsertProp props (ctlFieldName c) (scanFormProp pf e c)).any
            (fun p => p.1 = n) = true := by
        intro n hn
        rw [upsertProp_any]
        by_cases hcn : ctlFieldName c = n
        · simp [hcn]
        · have hn' : n ∈ req := by
            by_cases hr : c.required = true
            · rw [if_pos hr] at hn
              rcases List.mem_append.1 hn with h1 | h1
              · exact h1
              · exact absurd (List.mem_singleton.1 h1).symm hcn
            · rwa [if_neg hr] at hn
          simp [hinv n hn']
      by_cases hr : c.required = true
      · rw [show scanFormStep pf e (props, req) c
            = (upsertProp props (ctlFieldName c) (scanFormProp pf e c),
               req ++ [ctlFieldName c]) from by simp [scanFormStep, h', hr]]
        exact ih _ _ (by simpa [hr] using hup)
      · have hr' : c.required = false := by simpa using hr
        rw [show scanFormStep pf e (props, req) c
            = (upsertProp props (ctlFieldName c) (scanFormProp pf e c), req) from by
            simp [scanFormStep, h', hr']]
        exact ih _ _ (by simpa [hr'] using hup)


/-- `applyDesc` leaves `type` unchanged (helper). -/
theorem applyDesc_type {α : Type} (e : Elem) (c : Control) (p : SchemaProp α) :
    (applyDesc e c p).type = p.type := by
  unfold applyDesc
  split
  · rfl
  · split <;> rfl

/-- `applyDesc` leaves `minimum` unchanged (helper). -/
theorem applyDesc_minimum {α : Type} (e : Elem) (c : Control) (p : SchemaProp α) :
    (applyDesc e c p).minimum = p.minimum := by
  unfold applyDesc
  split
  · rfl
  · split <;> rfl

/-- `applyDesc` leaves `maximum` unchanged (helper). -/
theorem applyDesc_maximum {α : Type} (e : Elem) (c : Control) (p : SchemaProp α) :
    (applyDesc e c p).maximum = p.maximum := by
  unfold applyDesc
  split
  · rfl
  · split <;> rfl

/-- `applyDesc` leaves `enum` unchanged (helper). -/
theorem applyDesc_enum {α : Type} (e : Elem) (c : Control) (p : SchemaProp α) :
    (applyDesc e c p).enum = p.enum := by
  unfold applyDesc
  split
  · rfl
  · split <;> rfl

/-- `applyEnum` leaves `type` unchanged (helper). -/
theorem applyEnum_type {α : Type} (c : Control) (p : SchemaProp α) :
    (applyEnum c p).type = p.type := by
  unfold applyEnum
  dsimp only
  repeat' split
  all_goals rfl

/-- `applyEnum` leaves `minimum` unchanged (helper). -/
theorem applyEnum_minimum {α : Type} (c : Control) (p : SchemaProp α) :
    (applyEnum c p).minimum = p.minimum := by
  unfold applyEnum
  dsimp only
  repeat' split
  all_goals rfl

/-- `applyEnum` leaves `maximum` unchanged (helper). -/
theorem applyEnum_maximum {α : Type} (c : Control) (p : SchemaProp α) :
    (applyEnum c p).maximum = p.maximum := by
  unfold applyEnum
  dsimp only
  repeat' split
  all_goals rfl

/-- `applyEnum` on a SELECT control (helper). -/
theorem applyEnum_select {α : Type} (c : Control) (p : SchemaProp α)
    (hc : c.tagName = "SELECT") :
    (applyEnum c p).enum
      = (if 0 < (c.options.filter (fun v => v ≠ "")).length ∧
            (c.options.filter (fun v => v ≠ "")).length ≤ 20 then
           some (c.options.filter (fun v => v ≠ ""))
         else p.enum) := by
  unfold applyEnum
  rw [if_pos hc]
  dsimp only
  split <;> rfl

/-- `applyPattern` leaves `type` unchanged (helper). -/
theorem applyPattern_type {α : Type} (c : Control) (p : SchemaProp α) :
    (applyPattern c p).type = p.type := by
  unfold applyPattern
  split <;> rfl

/-- `applyPattern` leaves `minimum` unchanged (helper). -/
theorem applyPattern_minimum {α : Type} (c : Control) (p : SchemaProp α) :
    (applyPattern c p).minimum = p.minimum := by
  unfold applyPattern
  split <;> rfl

/-- `applyPattern` leaves `maximum` unchanged (helper). -/
theorem applyPattern_maximum {α : Type} (c : Control) (p : SchemaProp α) :
    (applyPattern c p).maximum = p.maximum := by
  unfold applyPattern
  split <;> rfl

/-- `applyPattern` leaves `enum` unchanged (helper). -/
theorem applyPattern_enum {α : Type} (c : Control) (p : SchemaProp α) :
    (applyPattern c p).enum = p.enum := by
  unfold applyPattern
  split <;> rfl

/-- Claim C8: `scanForm` skips hidden/submit controls and controls with
neither name nor id; number/range controls map to type `"number"` with
`minimum`/`maximum` parsed from the `min`/`max` attributes exactly when
those are present (non-empty); a SELECT contributes an `enum` of its
non-empty option values, in document order, iff their count is in
`(0, 20]`; a scanned control enters `required` iff it is marked required,
and `required` is always a subset of the property keys. -/
theorem c8_scanform_schema {α : Type} (pf : String → α) (e : Elem) :
    (∀ (acc : List (String × SchemaProp α) × List String) (c : Control),
        (c.type = "hidden" ∨ c.type = "submit" ∨ (c.name = "" ∧ c.id = "")) →
        scanFormStep pf e acc c = acc) ∧
      (∀ c : Control, (c.type = "number" ∨ c.type = "range") →
        (scanFormProp pf e c).type = "number" ∧
          (scanFormProp pf e c).minimum
            = (if c.min ≠ "" then some (pf c.min) else none) ∧
          (scanFormProp pf e c).maximum
            = (if c.max ≠ "" then some (pf c.max) else none)) ∧
      (∀ c : Control, c.tagName = "SELECT" →
        (scanFormProp pf e c).enum
          = (if 0 < (c.options.filter (fun v => v ≠ "")).length ∧
                (c.options.filter (fun v => v ≠ "")).length ≤ 20 then
               some (c.options.filter (fun v => v ≠ ""))
             else none)) ∧
      ((scanForm pf e).required
        = (e.controls.filter (fun c => !ctlSkip c && c.required)).map ctlFieldName) ∧
      (∀ n ∈ (scanForm pf e).required,
        (scanForm pf e).properties.any (fun p => p.1 = n) = true) := by
  refine ⟨?_, ?_, ?_, ?_, ?_⟩
  · intro acc c hc
    have hskip : ctlSkip c = true := by
      rcases hc with h | h | ⟨h1, h2⟩
      · simp [ctlSkip, h]
      · simp [ctlSkip, h]
      · simp [ctlSkip, ctlFieldName, h1, h2]
    unfold scanFormStep
    rw [if_pos hskip]
  · intro c hc
    unfold scanFormProp
    refine ⟨?_, ?_, ?_⟩
    · rw [applyPattern_type, applyEnum_type, applyDesc_type]
      unfold scanFormPropBase
      rw [if_pos hc]
    · rw [applyPattern_minimum, applyEnum_minimum, applyDesc_minimum]
      unfold scanFormPropBase
      rw [if_pos hc]
    · rw [applyPattern_maximum, applyEnum_maximum, applyDesc_maximum]
      unfold scanFormPropBase
      rw [if_pos hc]
  · intro c hc
    unfold scanFormProp
    rw [applyPattern_enum, applyEnum_select c _ hc, applyDesc_enum]
    have hb : (scanFormPropBase (α := α) pf c).enum = none := by
      unfold scanFormPropBase
      repeat' split
      all_goals rfl
    rw [hb]
  · show (e.controls.foldl (scanFormStep pf e) ([], [])).2 = _
    rw [scanFormFold_required pf e e.controls [] []]
    rfl
  · show ∀ n ∈ (e.controls.foldl (scanFormStep pf e) ([], [])).2,
      (e.controls.foldl (scanFormStep pf e) ([], [])).1.any (fun p => p.1 = n) = true
    exact scanFormFold_subset pf e e.controls [] [] (by intro n hn; cases hn)

/-- A concrete `parseFloat` stand-in used by witnesses. -/
def pfW : String → Int := fun s => if s = "1000" then 1000 else 0

/-- The scenario form's number control (bounds 0 and 1000). -/
def c8CtlNum : Control := { name := "maxPrice", type := "number", min := "0", max := "1000" }

/-- The scenario form's selection control (3 non-empty options). -/
def c8CtlSel : Control :=
  { tagName := "SELECT", name := "category", type := "select-one"
    options := ["shoes", "shirts", "pants"] }

/-- A selection control with 25 options. -/
def c8CtlSel25 : Control :=
  { tagName := "SELECT", name := "big", type := "select-one"
    options := List.replicate 25 "v" }

/-- A hidden control. -/
def c8CtlHidden : Control := { name := "csrf", type := "hidden" }

/-- The scenario form: required text `query`, 3-option select `category`,
numeric `maxPrice`, hidden `csrf`. -/
def c8Form : Elem :=
  { tagName := "FORM", id := "search"
    controls := [{ name := "query", required := true }, c8CtlSel, c8CtlNum, c8CtlHidden] }

/-- Witness for C8 on the scenario form: the hidden control contributes
nothing; `maxPrice` maps to number with bounds 0/1000; the 3-option
select gets its enum in document order while the 25-option select gets
none; `required = ["query"]` and is inside the property keys. -/
theorem c8_scanform_schema_witness :
    scanFormStep pfW c8Form ([], []) c8CtlHidden = ([], []) ∧
      (scanFormProp pfW c8Form c8CtlNum).type = "number" ∧
      (scanFormProp pfW c8Form c8CtlNum).minimum = some 0 ∧
      (scanFormProp pfW c8Form c8CtlNum).maximum = some 1000 ∧
      (scanFormProp pfW c8Form c8CtlSel).enum = some ["shoes", "shirts", "pants"] ∧
      (scanFormProp pfW c8Form c8CtlSel25).enum = none ∧
      (scanForm pfW c8Form).required = ["query"] ∧
      (scanForm pfW c8Form).properties.any (fun p => p.1 = "query") = true := by
  refine ⟨?_, ?_, ?_, ?_, ?_, ?_, ?_, ?_⟩
  · exact (c8_scanform_schema pfW c8Form).1 ([], []) c8CtlHidden (Or.inl rfl)
  · rw [((c8_scanform_schema pfW c8Form).2.1 c8CtlNum (Or.inl rfl)).1]
  · rw [((c8_scanform_schema pfW c8Form).2.1 c8CtlNum (Or.inl rfl)).2.1]
    decide
  · rw [((c8_scanform_schema pfW c8Form).2.1 c8CtlNum (Or.inl rfl)).2.2]
    decide
  · rw [(c8_scanform_schema pfW c8Form).2.2.1 c8CtlSel rfl]
    decide
  · rw [(c8_scanform_schema pfW c8Form).2.2.1 c8CtlSel25 rfl]
    decide
  · rw [(c8_scanform_schema pfW c8Form).2.2.2.1]
    decide
  · exact (c8_scanform_schema pfW c8Form).2.2.2.2 "query" (by decide)

/- ── C4: slug idempotence ─────────────────────────────────────────────── -/

/-- Characters that can appear in a slug: `_`, `a`-`z`, `0`-`9`. -/
def slugOutChar (c : Char) : Bool :=
  c = '_' || (97 ≤ c.toNat && c.toNat ≤ 122) || (48 ≤ c.toNat && c.toNat ≤ 57)

/-- No two adjacent underscores. -/
def noDbl : List Char → Prop
  | [] => True
  | [_] => True
  | a :: b :: rest => ¬(a = '_' ∧ b = '_') ∧ noDbl (b :: rest)

/-- Case analysis on a slug character (helper). -/
theorem slugOutChar_cases (c : Char) (h : slugOutChar c = true) :
    c = '_' ∨ (97 ≤ c.toNat ∧ c.toNat ≤ 122) ∨ (48 ≤ c.toNat ∧ c.toNat ≤ 57) := by
  simp only [slugOutChar, Bool.or_eq_true, Bool.and_eq_true, decide_eq_true_eq] at h
  rcases h with (h | h) | h
  · exact Or.inl h
  · exact Or.inr (Or.inl h)
  · exact Or.inr (Or.inr h)

/-- Slug characters are `toLowerCase`-fixed (helper). -/
theorem slugOutChar_toLower (c : Char) (h : slugOutChar c = true) : Char.toLower c = c := by
  unfold Char.toLower
  rcases slugOutChar_cases c h with h | h | h
  · subst h
    decide
  · rw [if_neg (by omega)]
  · rw [if_neg (by omega)]

/-- Slug characters survive the strip step (helper). -/
theorem slugOutChar_keep (c : Char) (h : slugOutChar c = true) : keepChar c = true := by
  simp only [keepChar, isCollapseChar, Bool.or_eq_true, Bool.and_eq_true, decide_eq_true_eq]
  rcases slugOutChar_cases c h with h | h | h
  · subst h
    right
    left
    right
    rfl
  · exact Or.inl (Or.inl h)
  · exact Or.inl (Or.inr h)

/-- A non-underscore slug character is not a collapse character (helper). -/
theorem slugOutChar_not_collapse (c : Char) (h : slugOutChar c = true) (hne : c ≠ '_') :
    isCollapseChar c = false := by
  have hn : (97 ≤ c.toNat ∧ c.toNat ≤ 122) ∨ (48 ≤ c.toNat ∧ c.toNat ≤ 57) := by
    rcases slugOutChar_cases c h with h | h | h
    · exact absurd h hne
    · exact Or.inl h
    · exact Or.inr h
  by_contra hcol
  rw [Bool.not_eq_false] at hcol
  simp only [isCollapseChar, Char.isWhitespace, Bool.or_eq_true, decide_eq_true_eq] at hcol
  rcases hcol with ((((hc | hc) | hc) | hc) | hc) | hc
  · subst hc
    exact absurd hn (by decide)
  · subst hc
    exact absurd hn (by decide)
  · subst hc
    exact absurd hn (by decide)
  · subst hc
    exact absurd hn (by decide)
  · exact hne hc
  · subst hc
    exact absurd hn (by decide)

/-- A kept non-collapse character is a slug character (helper). -/
theorem keep_not_collapse_out (c : Char) (hk : keepChar c = true)
    (hc : isCollapseChar c = false) : slugOutChar c = true := by
  simp only [keepChar, Bool.or_eq_true] at hk
  rcases hk with (hk | hk) | hk
  · simp [slugOutChar, hk]
  · simp [slugOutChar, hk]
  · rw [hk] at hc
    exact Bool.noConfusion hc

/-- `noDbl` of a tail (helper). -/
theorem noDbl_tail (a : Char) (m : List Char) (h : noDbl (a :: m)) : noDbl m := by
  cases m with
  | nil => trivial
  | cons b rest => exact h.2

/-- Building `noDbl` of a cons (helper). -/
theorem noDbl_cons (a : Char) (m : List Char)
    (hhead : ∀ b, m.head? = some b → ¬(a = '_' ∧ b = '_')) (hm : noDbl m) :
    noDbl (a :: m) := by
  cases m with
  | nil => trivial
  | cons b rest => exact ⟨hhead b rfl, hm⟩

/-- After an underscore, `noDbl` forbids another (helper). -/
theorem noDbl_head2 (b : Char) (m : List Char) (h : noDbl ('_' :: b :: m)) : b ≠ '_' := by
  intro hb
  exact h.1 ⟨rfl, hb⟩

/-- Every character produced by the collapse step is a slug character
(helper). -/
theorem collapseAux_chars (l : List Char) :
    ∀ (prev : Bool), (∀ c ∈ l, keepChar c = true) →
      ∀ c ∈ collapseAux prev l, slugOutChar c = true := by
  induction l with
  | nil =>
    intro prev _ c hc
    exact absurd hc (List.not_mem_nil c)
  | cons a rest ih =>
    intro prev hall c hc
    unfold collapseAux at hc
    by_cases ha : isCollapseChar a = true
    · rw [if_pos ha] at hc
      by_cases hp : prev = true
      · rw [if_pos hp] at hc
        exact ih true (fun x hx => hall x (List.mem_cons_of_mem a hx)) c hc
      · rw [if_neg hp] at hc
        rcases List.mem_cons.1 hc with h1 | h1
        · subst h1
          rfl
        · exact ih true (fun x hx => hall x (List.mem_cons_of_mem a hx)) c h1
    · have ha' : isCollapseChar a = false := by simpa using ha
      rw [if_neg (by simp [ha'])] at hc
      rcases List.mem_cons.1 hc with h1 | h1
      · subst h1
        exact keep_not_collapse_out _ (hall _ (List.mem_cons_self _ _)) ha'
      · exact ih false (fun x hx => hall x (List.mem_cons_of_mem a hx)) c h1

/-- The collapse step yields no adjacent underscores, and (when the
previous character was part of a run) no leading underscore (helper). -/
theorem collapseAux_noDbl (l : List Char) :
    ∀ prev : Bool, noDbl (collapseAux prev l) ∧
      (prev = true → (collapseAux prev l).head? ≠ some '_') := by
  induction l with
  | nil =>
    intro prev
    exact ⟨trivial, fun _ => by simp [collapseAux]⟩
  | cons a rest ih =>
    intro prev
    unfold collapseAux
    by_cases ha : isCollapseChar a = true
    · rw [if_pos ha]
      by_cases hp : prev = true
      · subst hp
        rw [if_pos rfl]
        exact ih true
      · rw [if_neg hp]
        constructor
        · refine noDbl_cons '_' _ ?_ (ih true).1
          intro b hb hcontra
          rw [hcontra.2] at hb
          exact (ih true).2 rfl hb
        · intro hpc
          exact absurd hpc hp
    · have ha' : isCollapseChar a = false := by simpa using ha
      rw [if_neg (by simp [ha'])]
      have hane : a ≠ '_' := by
        intro hc
        rw [hc] at ha'
        exact Bool.noConfusion ha'
      constructor
      · refine noDbl_cons a _ ?_ (ih false).1
        intro b _ hcontra
        exact hane hcontra.1
      · intro _
        simp [hane]

/-- `dropLeadUnd` keeps a sublist of characters (helper). -/
theorem dropLeadUnd_mem (l : List Char) (c : Char) (h : c ∈ dropLeadUnd l) : c ∈ l := by
  cases l with
  | nil => exact h
  | cons a rest =>
    simp only [dropLeadUnd] at h
    by_cases ha : a = '_'
    · rw [if_pos ha] at h
      exact List.mem_cons_of_mem a h
    · rwa [if_neg ha] at h

/-- `dropLeadUnd` preserves `noDbl` (helper). -/
theorem dropLeadUnd_noDbl (l : List Char) (h : noDbl l) : noDbl (dropLeadUnd l) := by
  cases l with
  | nil => trivial
  | cons a rest =>
    simp only [dropLeadUnd]
    by_cases ha : a = '_'
    · rw [if_pos ha]
      exact noDbl_tail a rest h
    · rwa [if_neg ha]

/-- `dropLeadUnd` of a `noDbl` list does not start with `_` (helper). -/
theorem dropLeadUnd_head (l : List Char) (h : noDbl l) :
    (dropLeadUnd l).head? ≠ some '_' := by
  cases l with
  | nil => simp [dropLeadUnd]
  | cons a rest =>
    simp only [dropLeadUnd]
    by_cases ha : a = '_'
    · rw [if_pos ha]
      cases rest with
      | nil => simp
      | cons b rest' =>
        subst ha
        simp only [List.head?_cons, ne_eq, Option.some.injEq]
        exact noDbl_head2 b rest' h
    · rw [if_neg ha]
      simp only [List.head?_cons, ne_eq, Option.some.injEq]
      exact ha

/-- `dropLeadUnd` fixes lists not starting with `_` (helper). -/
theorem dropLeadUnd_fix (l : List Char) (h : l.head? ≠ some '_') : dropLeadUnd l = l := by
  cases l with
  | nil => rfl
  | cons a rest =>
    simp only [dropLeadUnd]
    rw [if_neg (by simpa using h)]

/-- `dropTrailUnd` keeps a sublist of characters (helper). -/
theorem dropTrailUnd_mem (l : List Char) (c : Char) (h : c ∈ dropTrailUnd l) : c ∈ l := by
  induction l with
  | nil => exact h
  | cons a rest ih =>
    cases rest with
    | nil =>
      unfold dropTrailUnd at h
      split at h
      · exact absurd h (List.not_mem_nil c)
      · exact h
    | cons b rest' =>
      rw [show dropTrailUnd (a :: b :: rest') = a :: dropTrailUnd (b :: rest') from rfl] at h
      rcases List.mem_cons.1 h with h1 | h1
      · exact h1 ▸ List.mem_cons_self _ _
      · exact List.mem_cons_of_mem a (ih h1)


/-- The head of `dropTrailUnd (b :: m)` is `b` unless the result is empty
(helper). -/
theorem dropTrailUnd_head_cons (b : Char) (m : List Char) :
    dropTrailUnd (b :: m) = [] ∨ (dropTrailUnd (b :: m)).head? = some b := by
  cases m with
  | nil =>
    unfold dropTrailUnd
    by_cases hb : b = '_'
    · rw [if_pos hb]
      exact Or.inl rfl
    · rw [if_neg hb]
      exact Or.inr rfl
  | cons c rest => exact Or.inr rfl

/-- `dropTrailUnd` preserves `noDbl` (helper). -/
theorem dropTrailUnd_noDbl (l : List Char) (h : noDbl l) : noDbl (dropTrailUnd l) := by
  induction l with
  | nil => trivial
  | cons a rest ih =>
    cases rest with
    | nil =>
      unfold dropTrailUnd
      split
      · trivial
      · trivial
    | cons b rest' =>
      rw [show dropTrailUnd (a :: b :: rest') = a :: dropTrailUnd (b :: rest') from rfl]
      refine noDbl_cons a _ ?_ (ih (noDbl_tail a _ h))
      intro x hx hcontra
      rcases dropTrailUnd_head_cons b rest' with he | he
      · rw [he] at hx
        exact Option.noConfusion hx
      · rw [he] at hx
        have hxb : b = x := Option.some.inj hx
        exact h.1 ⟨hcontra.1, hxb.trans hcontra.2⟩

/-- `dropTrailUnd` preserves a non-underscore head (helper). -/
theorem dropTrailUnd_head (l : List Char) (h : l.head? ≠ some '_') :
    (dropTrailUnd l).head? ≠ some '_' := by
  cases l with
  | nil => simp [dropTrailUnd]
  | cons a rest =>
    cases rest with
    | nil =>
      unfold dropTrailUnd
      split
      · simp
      · simpa using h
    | cons b rest' =>
      rw [show dropTrailUnd (a :: b :: rest') = a :: dropTrailUnd (b :: rest') from rfl]
      simpa using h

/-- `dropTrailUnd` fixes lists not ending in `_` (helper). -/
theorem dropTrailUnd_fix (l : List Char) (h : l.getLast? ≠ some '_') : dropTrailUnd l = l := by
  induction l with
  | nil => rfl
  | cons a rest ih =>
    cases rest with
    | nil =>
      unfold dropTrailUnd
      rw [if_neg (by simpa using h)]
    | cons b rest' =>
      rw [show dropTrailUnd (a :: b :: rest') = a :: dropTrailUnd (b :: rest') from rfl]
      rw [ih (by rwa [List.getLast?_cons_cons] at h)]

/-- `take` preserves `noDbl` (helper). -/
theorem take_noDbl (l : List Char) (h : noDbl l) : ∀ n : Nat, noDbl (l.take n) := by
  induction l with
  | nil =>
    intro n
    rw [List.take_nil]
    trivial
  | cons a rest ih =>
    intro n
    cases n with
    | zero => trivial
    | succ k =>
      rw [List.take_succ_cons]
      refine noDbl_cons a _ ?_ (ih (noDbl_tail a _ h) k)
      intro x hx hcontra
      cases rest with
      | nil =>
        rw [List.take_nil] at hx
        exact Option.noConfusion hx
      | cons b rest' =>
        cases k with
        | zero =>
          rw [List.take_zero] at hx
          exact Option.noConfusion hx
        | succ j =>
          rw [List.take_succ_cons] at hx
          have hxb : b = x := Option.some.inj hx
          exact h.1 ⟨hcontra.1, hxb.trans hcontra.2⟩

/-- `take` preserves a non-underscore head (helper). -/
theorem take_head (l : List Char) (h : l.head? ≠ some '_') (n : Nat) (hn : 0 < n) :
    (l.take n).head? ≠ some '_' := by
  cases l with
  | nil =>
    rw [List.take_nil]
    exact h
  | cons a rest =>
    cases n with
    | zero => exact absurd hn (by omega)
    | succ k =>
      rw [List.take_succ_cons]
      simpa using h

/-- The collapse step fixes slug-character `noDbl` lists (helper). -/
theorem collapseAux_fix (l : List Char) :
    ∀ prev : Bool, (∀ c ∈ l, slugOutChar c = true) → noDbl l →
      (prev = true → l.head? ≠ some '_') → collapseAux prev l = l := by
  induction l with
  | nil => intro prev _ _ _; rfl
  | cons a rest ih =>
    intro prev hall hdbl hhead
    unfold collapseAux
    by_cases ha : a = '_'
    · subst ha
      have hprev : prev = false := by
        cases prev with
        | false => rfl
        | true =>
          exfalso
          exact hhead rfl (by simp)
      subst hprev
      rw [if_pos (by simp [isCollapseChar])]
      rw [if_neg (by simp)]
      rw [ih true (fun c hc => hall c (List.mem_cons_of_mem _ hc)) (noDbl_tail _ _ hdbl) ?_]
      intro _
      cases rest with
      | nil => simp
      | cons b rest' =>
        simp only [List.head?_cons, ne_eq, Option.some.injEq]
        exact noDbl_head2 b rest' hdbl
    · have hcol : isCollapseChar a = false :=
        slugOutChar_not_collapse a (hall a (List.mem_cons_self _ _)) ha
      rw [if_neg (by simp [hcol])]
      rw [ih false (fun c hc => hall c (List.mem_cons_of_mem _ hc)) (noDbl_tail _ _ hdbl)
        (fun hcontra => Bool.noConfusion hcontra)]

/-- The strip step fixes kept-character lists (helper). -/
theorem filter_keep_fix (l : List Char) (h : ∀ c ∈ l, keepChar c = true) :
    l.filter keepChar = l := by
  induction l with
  | nil => rfl
  | cons a rest ih =>
    rw [List.filter_cons, if_pos (by simp [h a (List.mem_cons_self _ _)])]
    rw [ih (fun c hc => h c (List.mem_cons_of_mem _ hc))]

/-- The lowercase step fixes slug-character lists (helper). -/
theorem map_toLower_fix (l : List Char) (h : ∀ c ∈ l, slugOutChar c = true) :
    l.map Char.toLower = l := by
  induction l with
  | nil => rfl
  | cons a rest ih =>
    rw [List.map_cons, slugOutChar_toLower a (h a (List.mem_cons_self _ _))]
    rw [ih (fun c hc => h c (List.mem_cons_of_mem _ hc))]

/-- Every character of a slug is a slug character (helper). -/
theorem slugList_chars (l : List Char) : ∀ c ∈ slugList l, slugOutChar c = true := by
  intro c hc
  unfold slugList at hc
  have h1 := List.mem_of_mem_take hc
  have h2 := dropTrailUnd_mem _ _ h1
  have h3 := dropLeadUnd_mem _ _ h2
  exact collapseAux_chars _ false (fun x hx => List.of_mem_filter hx) _ h3

/-- A slug has no adjacent underscores (helper). -/
theorem slugList_noDbl (l : List Char) : noDbl (slugList l) := by
  unfold slugList
  exact take_noDbl _
    (dropTrailUnd_noDbl _ (dropLeadUnd_noDbl _ (collapseAux_noDbl _ false).1)) 40

/-- A slug does not start with an underscore (helper). -/
theorem slugList_head (l : List Char) : (slugList l).head? ≠ some '_' := by
  unfold slugList
  exact take_head _
    (dropTrailUnd_head _ (dropLeadUnd_head _ (collapseAux_noDbl _ false).1)) 40 (by omega)

/-- The slug transform fixes any ≤40-character slug-character list with no
adjacent underscores and no leading or trailing underscore (helper). -/
theorem slugList_fix (l : List Char) (hchars : ∀ c ∈ l, slugOutChar c = true)
    (hdbl : noDbl l) (hhead : l.head? ≠ some '_') (hlast : l.getLast? ≠ some '_')
    (hlen : l.length ≤ 40) : slugList l = l := by
  unfold slugList
  rw [map_toLower_fix l hchars,
    filter_keep_fix l (fun c hc => slugOutChar_keep c (hchars c hc)),
    collapseAux_fix l false hchars hdbl (fun hcontra => Bool.noConfusion hcontra),
    dropLeadUnd_fix l hhead, dropTrailUnd_fix l hlast, List.take_of_length_le hlen]

/-- The input on which the slug transform fails to be idempotent: 39 `a`s
and then ` b`, whose slug is 40 characters ending in `_`. -/
def c4X : String := ⟨List.replicate 39 'a'⟩ ++ " b"

/-- Counterexample to claim C4: the slug transform trims underscores
BEFORE the 40-character truncation, so truncation can expose a trailing
underscore that a second application removes: `slug(slug(c4X)) ≠
slug(c4X)`. -/
theorem c4_counterexample : slugify (slugify c4X) ≠ slugify c4X := by
  decide

/-- Claim C4 as amended: the slug transform is idempotent on every input
whose slug does not end in an underscore (truncation is the only way a
trailing underscore can survive; on such inputs `slug(slug(x)) =
slug(x)`). -/
theorem c4_slug_idempotent_no_trailing (x : String)
    (h : (slugify x).data.getLast? ≠ some '_') :
    slugify (slugify x) = slugify x := by
  have hfix : slugList (slugList x.data) = slugList x.data :=
    slugList_fix _ (slugList_chars _) (slugList_noDbl _) (slugList_head _) h
      (by unfold slugList; exact List.length_take_le _ _)
  show (⟨slugList (slugList x.data)⟩ : String) = ⟨slugList x.data⟩
  rw [hfix]

/-- Witness for C4 (amended) at a concrete input whose slug has no
trailing underscore. -/
theorem c4_slug_idempotent_no_trailing_witness :
    ((slugify "Hello World!").data.getLast? ≠ some '_') ∧
      slugify (slugify "Hello World!") = slugify "Hello World!" :=
  ⟨by decide, c4_slug_idempotent_no_trailing "Hello World!" (by decide)⟩
